import Mathlib

/-!
Verification of the CSV-to-NDO-variables converter
(csv_to_ndo_vars.py): a batch pipeline that turns flat CSV tables
(VRFs, bridge domains, subnets, ANPs, EPGs, domain associations) into
nested per-entity records.

Embedding choices:
* A loaded CSV table is a list of structured rows (one structure per
  table, fields as strings, mirroring the DictReader output).
* Python dicts (insertion-ordered, in-place overwrite) are embedded as
  association lists with an update-in-place operation, dupdate: it
  rewrites the value at the first matching key, or appends the key at
  the end when absent.  This is exactly CPython dict-assignment
  semantics, including first-insertion key order surviving overwrite.
* defaultdict two-level grouping is dupdate with a default value.
* The optional secondary CSV (path omitted or file missing) is an
  Option: none means no secondary table is read.
* Python str.strip, str.split and str.lower are embedded
  character-list-wise (pyStrip, splitChar, pyLower).
-/

set_option autoImplicit false

/-- One data row of the VRFs CSV. -/
structure VrfRow where
  name : String
  schema : String
  template : String
  deriving DecidableEq, Repr

/-- A flat VRF record produced by build_vrfs. -/
structure Vrf where
  name : String
  schema : String
  template : String
  deriving DecidableEq, Repr

/-- One data row of the ANPs CSV. -/
structure AnpRow where
  name : String
  schema : String
  template : String
  deriving DecidableEq, Repr

/-- A flat ANP record produced by build_anps. -/
structure Anp where
  name : String
  schema : String
  template : String
  deriving DecidableEq, Repr

/-- One data row of the bridge-domains CSV. -/
structure BdRow where
  name : String
  schema : String
  template : String
  vrf : String
  layer2_stretch : String
  unicast_routing : String
  deriving DecidableEq, Repr

/-- One data row of the bd-subnets CSV. -/
structure SubnetRow where
  bd_name : String
  site_name : String
  subnet_ip : String
  scope : String
  deriving DecidableEq, Repr

/-- A subnet record nested under a site: the ip/scope pair built from a
subnet row. -/
structure Subnet where
  ip : String
  scope : String
  deriving DecidableEq, Repr

/-- A site nested under a bridge domain, carrying its subnets and the
always-null l3outs slot. -/
structure Site where
  name : String
  subnets : List Subnet
  l3outs : Option String
  deriving DecidableEq, Repr

/-- A bridge-domain record produced by build_bridge_domains. -/
structure BridgeDomain where
  name : String
  schema : String
  template : String
  vrf : String
  layer2_stretch : Bool
  unicast_routing : Bool
  sites : List Site
  deriving DecidableEq, Repr

/-- One data row of the EPGs CSV.  The description column may be absent
from the file, hence Option; row.get of the source defaults it. -/
structure EpgRow where
  name : String
  schema : String
  template : String
  ap : String
  bd : String
  description : Option String
  vrf : String
  deriving DecidableEq, Repr

/-- One data row of the epg-domains CSV. -/
structure EpgDomainRow where
  epg_name : String
  site_name : String
  domain_type : String
  domain_name : String
  deriving DecidableEq, Repr

/-- The pair of per-site association buckets used while grouping domain
rows (the phys/vmm default value of the inner defaultdict). -/
structure DomLists where
  phys : List String
  vmm : List String
  deriving DecidableEq, Repr

/-- A site nested under an EPG, carrying the two domain-association
lists. -/
structure EpgSite where
  name : String
  phys_domain_association : List String
  vmm_domain_association : List String
  deriving DecidableEq, Repr

/-- An EPG record produced by build_epgs. -/
structure Epg where
  name : String
  schema : String
  template : String
  ap : String
  bd : String
  description : String
  vrf : String
  sites : List EpgSite
  deriving DecidableEq, Repr

/-- Embedding of Python str.strip on a character list: drop whitespace
from both ends. -/
def stripChars (l : List Char) : List Char :=
  ((l.dropWhile Char.isWhitespace).reverse.dropWhile Char.isWhitespace).reverse

/-- Embedding of Python str.strip on strings. -/
def pyStrip (s : String) : String :=
  ⟨stripChars s.data⟩

/-- Embedding of Python str.split with a one-character separator: split
at every occurrence, keeping empty pieces; the empty input gives one
empty piece. -/
def splitChar (c : Char) : List Char → List (List Char)
  | [] => [[]]
  | x :: xs =>
    match splitChar c xs with
    | [] => [[]]
    | h :: t => if x = c then [] :: h :: t else (x :: h) :: t

/-- Embedding of value.split on a string, returning strings. -/
def pySplit (c : Char) (s : String) : List String :=
  (splitChar c s.data).map fun l => ⟨l⟩

/-- parse_list_field: comma-separated string to list of trimmed tokens;
empty or all-whitespace input gives the empty list. -/
def parse_list_field (value : String) : List String :=
  if value = "" ∨ pyStrip value = "" then []
  else (pySplit ',' value).map pyStrip

/-- Embedding of Python str.lower on strings: lower-case every
character. -/
def pyLower (s : String) : String :=
  ⟨s.data.map Char.toLower⟩

/-- parse_bool: the lower-cased value is tested for membership in the
tuple of truthy tokens. -/
def parse_bool (value : String) : Bool :=
  ["true", "yes", "1"].contains (pyLower value)

/-- build_vrfs: each row maps to a flat record, in row order. -/
def build_vrfs (rows : List VrfRow) : List Vrf :=
  rows.map fun row => { name := row.name, schema := row.schema, template := row.template }

/-- build_anps: each row maps to a flat record, in row order. -/
def build_anps (rows : List AnpRow) : List Anp :=
  rows.map fun row => { name := row.name, schema := row.schema, template := row.template }

/-- Association-list lookup with propositional key comparison: the value
at the first matching key. -/
def alookup {β : Type} (k : String) : List (String × β) → Option β
  | [] => none
  | e :: rest => if e.1 = k then some e.2 else alookup k rest

/-- Python dict write d[k] = f(current-or-default): rewrite the value at
the first occurrence of the key in place, or append (k, f d) at the end
when the key is absent.  With f constant this is plain dict assignment;
with a default it is defaultdict access-then-mutate. -/
def dupdate {β : Type} (k : String) (f : β → β) (d : β) : List (String × β) → List (String × β)
  | [] => [(k, f d)]
  | e :: rest => if e.1 = k then (e.1, f e.2) :: rest else e :: dupdate k f d rest

/-- Conditional dict mutation: rewrite the value at the key if present,
leave the list unchanged if absent (the if-name-in-dict pattern of the
attach phases). -/
def dmodify {β : Type} (k : String) (f : β → β) : List (String × β) → List (String × β)
  | [] => []
  | e :: rest => if e.1 = k then (e.1, f e.2) :: rest else e :: dmodify k f rest

/-- The bridge-domain record built from one primary CSV row (sites start
empty; the two flags go through parse_bool). -/
def mkBridgeDomain (row : BdRow) : BridgeDomain :=
  { name := row.name, schema := row.schema, template := row.template, vrf := row.vrf,
    layer2_stretch := parse_bool row.layer2_stretch,
    unicast_routing := parse_bool row.unicast_routing, sites := [] }

/-- The two-level defaultdict grouping of subnet rows: outer key
bd_name, inner key site_name, each row appending its ip/scope pair to
the inner list. -/
def group_subnets (rows : List SubnetRow) : List (String × List (String × List Subnet)) :=
  rows.foldl
    (fun g row =>
      dupdate row.bd_name
        (dupdate row.site_name
          (fun subs => subs ++ [{ ip := row.subnet_ip, scope := row.scope }]) []) [] g)
    []

/-- build_bridge_domains: phase 1 inserts one record per primary row
into a name-keyed dict (duplicate names overwrite in place); phase 2,
run only when a subnet table is present, groups the subnet rows by
(bd_name, site_name) and, for each grouped bd_name present in the dict,
appends one site per distinct site_name with l3outs null; the result is
the dict's values in key-insertion order. -/
def build_bridge_domains (bd_rows : List BdRow) (subnet_rows : Option (List SubnetRow)) :
    List BridgeDomain :=
  let bds := bd_rows.foldl
    (fun m row => dupdate row.name (fun _ => mkBridgeDomain row) (mkBridgeDomain row) m) []
  let bds := match subnet_rows with
    | none => bds
    | some rows =>
      (group_subnets rows).foldl
        (fun m (e : String × List (String × List Subnet)) =>
          dmodify e.1
            (fun bd : BridgeDomain =>
              { bd with
                sites := bd.sites ++
                  e.2.map (fun se : String × List Subnet =>
                    ({ name := se.1, subnets := se.2, l3outs := none } : Site)) }) m)
        bds
  bds.map Prod.snd

/-- The EPG record built from one primary CSV row (sites start empty;
a missing description column defaults to the empty string). -/
def mkEpg (row : EpgRow) : Epg :=
  { name := row.name, schema := row.schema, template := row.template, ap := row.ap,
    bd := row.bd, description := row.description.getD "", vrf := row.vrf, sites := [] }

/-- The two-level defaultdict grouping of domain rows: outer key
epg_name, inner key site_name; rows typed physical append to the phys
bucket, rows typed vmm to the vmm bucket, any other type touches
nothing. -/
def group_domains (rows : List EpgDomainRow) : List (String × List (String × DomLists)) :=
  rows.foldl
    (fun g row =>
      if row.domain_type = "physical" then
        dupdate row.epg_name
          (dupdate row.site_name
            (fun d => { d with phys := d.phys ++ [row.domain_name] }) ⟨[], []⟩) [] g
      else if row.domain_type = "vmm" then
        dupdate row.epg_name
          (dupdate row.site_name
            (fun d => { d with vmm := d.vmm ++ [row.domain_name] }) ⟨[], []⟩) [] g
      else g)
    []

/-- build_epgs: same two-phase shape as build_bridge_domains, with the
per-site child being the phys/vmm association-list pair. -/
def build_epgs (epg_rows : List EpgRow) (domain_rows : Option (List EpgDomainRow)) :
    List Epg :=
  let epgs := epg_rows.foldl
    (fun m row => dupdate row.name (fun _ => mkEpg row) (mkEpg row) m) []
  let epgs := match domain_rows with
    | none => epgs
    | some rows =>
      (group_domains rows).foldl
        (fun m (e : String × List (String × DomLists)) =>
          dmodify e.1
            (fun epg : Epg =>
              { epg with
                sites := epg.sites ++
                  e.2.map (fun se : String × DomLists =>
                    ({ name := se.1, phys_domain_association := se.2.phys,
                       vmm_domain_association := se.2.vmm } : EpgSite)) }) m)
        epgs
  epgs.map Prod.snd


/-! ### Generic ordered-dict machinery and spec-level groupings: definitions -/

/-- The distinct members of a list, ordered by first occurrence. -/
def firstOccs : List String → List String
  | [] => []
  | x :: xs => x :: (firstOccs xs).filter (fun y => y ≠ x)

section GroupByDefs

variable {R β : Type} (recog : R → Bool) (K S : R → String) (upd : R → β → β) (d0 : β)

/-- One step of the grouping loop: a recognized row mutates the
two-level defaultdict at (K r, S r) through upd; any other row leaves
it untouched. -/
def groupStep (g : List (String × List (String × β))) (r : R) :
    List (String × List (String × β)) :=
  if recog r then dupdate (K r) (dupdate (S r) (upd r) d0) [] g else g

/-- The grouping loop over all rows, starting from the empty dict. -/
def groupBy2 (rows : List R) : List (String × List (String × β)) :=
  rows.foldl (groupStep recog K S upd d0) []

/-- The inner grouping loop: fold the rows of one outer group into a
site-keyed dict. -/
def innerGroup (rows : List R) : List (String × β) :=
  rows.foldl (fun i r => dupdate (S r) (upd r) d0 i) []

end GroupByDefs

section BuildMapDefs

variable {R β : Type} (key : R → String) (mk : R → β)

/-- The phase-1 loop shared by the two join builders: one dict
assignment per primary row, keyed by the row's name. -/
def build_map (rows : List R) : List (String × β) :=
  rows.foldl (fun m r => dupdate (key r) (fun _ => mk r) (mk r) m) []

end BuildMapDefs

/-- Apply the attach transformation when the outer grouping holds the
key, otherwise leave the record alone. -/
def applyOptF {β γ : Type} (F : γ → β → β) (o : Option γ) (b : β) : β :=
  match o with
  | some v => F v b
  | none => b

/-- The subnet record extracted from one subnet row. -/
def subnetOf (r : SubnetRow) : Subnet :=
  { ip := r.subnet_ip, scope := r.scope }

/-- One inner-dict entry turned into a Site (l3outs fixed to null). -/
def toSite (se : String × List Subnet) : Site :=
  { name := se.1, subnets := se.2, l3outs := none }

/-- The attach transformation of the bridge-domain phase 2: append the
grouped sites of one bd_name to that record's sites. -/
def bdAttach (inner : List (String × List Subnet)) (bd : BridgeDomain) : BridgeDomain :=
  { bd with sites := bd.sites ++ inner.map toSite }

/-- The specification-level site list of one bridge domain: subnet rows
grouped two levels deep by (bd_name, site_name), sites in order of
first occurrence of site_name among that bd_name's rows, subnets in row
order, l3outs null. -/
def bdSitesSpec (rows : List SubnetRow) (n : String) : List Site :=
  (firstOccs ((rows.filter (fun r => decide (r.bd_name = n))).map SubnetRow.site_name)).map
    (fun s =>
      { name := s,
        subnets := (rows.filter
            (fun r => decide (r.bd_name = n) && decide (r.site_name = s))).map subnetOf,
        l3outs := none })

/-- A domain row is recognized when its type discriminator is one of
the two handled values. -/
def domRecog (row : EpgDomainRow) : Bool :=
  decide (row.domain_type = "physical") || decide (row.domain_type = "vmm")

/-- The bucket mutation a recognized domain row performs: physical rows
append to phys, the remaining recognized rows (type vmm) to vmm. -/
def domUpd (row : EpgDomainRow) (d : DomLists) : DomLists :=
  if row.domain_type = "physical" then { d with phys := d.phys ++ [row.domain_name] }
  else { d with vmm := d.vmm ++ [row.domain_name] }

/-- One inner-dict entry turned into an EPG site. -/
def toEpgSite (se : String × DomLists) : EpgSite :=
  { name := se.1, phys_domain_association := se.2.phys,
    vmm_domain_association := se.2.vmm }

/-- The attach transformation of the EPG phase 2. -/
def epgAttach (inner : List (String × DomLists)) (epg : Epg) : Epg :=
  { epg with sites := epg.sites ++ inner.map toEpgSite }

/-- The specification-level site list of one EPG: recognized domain
rows grouped two levels deep by (epg_name, site_name), sites in order
of first occurrence of site_name among that EPG's recognized rows;
each site carries the physical-typed domain names in row order and the
vmm-typed domain names in row order. -/
def epgSitesSpec (rows : List EpgDomainRow) (n : String) : List EpgSite :=
  (firstOccs ((rows.filter
      (fun r => domRecog r && decide (r.epg_name = n))).map EpgDomainRow.site_name)).map
    (fun s =>
      { name := s,
        phys_domain_association := (rows.filter (fun r =>
          decide (r.epg_name = n) && decide (r.site_name = s) &&
            decide (r.domain_type = "physical"))).map EpgDomainRow.domain_name,
        vmm_domain_association := (rows.filter (fun r =>
          decide (r.epg_name = n) && decide (r.site_name = s) &&
            decide (r.domain_type = "vmm"))).map EpgDomainRow.domain_name })

/-! ### Association-list lemmas: dict semantics -/

theorem alookup_dupdate_self {β : Type} (k : String) (f : β → β) (d : β)
    (l : List (String × β)) :
    alookup k (dupdate k f d l) = some (f ((alookup k l).getD d)) := by
  induction l with
  | nil => simp [alookup, dupdate]
  | cons e rest ih => by_cases h : e.1 = k <;> simp [alookup, dupdate, h, ih]

theorem alookup_dupdate_ne {β : Type} {k k' : String} (f : β → β) (d : β)
    (l : List (String × β)) (hne : k' ≠ k) :
    alookup k' (dupdate k f d l) = alookup k' l := by
  induction l with
  | nil => simp [alookup, dupdate, Ne.symm hne]
  | cons e rest ih => by_cases h : e.1 = k <;> by_cases h2 : e.1 = k' <;>
      simp_all [alookup, dupdate]

theorem keys_dupdate {β : Type} (k : String) (f : β → β) (d : β)
    (l : List (String × β)) :
    (dupdate k f d l).map Prod.fst =
      if k ∈ l.map Prod.fst then l.map Prod.fst else l.map Prod.fst ++ [k] := by
  induction l with
  | nil => simp [dupdate]
  | cons e rest ih =>
    by_cases h : e.1 = k
    · simp [dupdate, h]
    · by_cases h2 : k ∈ rest.map Prod.fst <;>
        simp [dupdate, h, ih, h2, Ne.symm h]

theorem alookup_eq_none_iff {β : Type} (k : String) (l : List (String × β)) :
    alookup k l = none ↔ k ∉ l.map Prod.fst := by
  induction l with
  | nil => simp [alookup]
  | cons e rest ih =>
    by_cases h : e.1 = k
    · simp [alookup, h]
    · simp [alookup, h, ih, Ne.symm h]

theorem dupdate_of_not_mem {β : Type} {k : String} (f : β → β) (d : β)
    {l : List (String × β)} (hk : k ∉ l.map Prod.fst) :
    dupdate k f d l = l ++ [(k, f d)] := by
  induction l with
  | nil => simp [dupdate]
  | cons e rest ih =>
    simp only [List.map_cons, List.mem_cons, not_or] at hk
    simp [dupdate, Ne.symm hk.1, ih hk.2]

theorem mem_iff_alookup {β : Type} {l : List (String × β)}
    (hl : (l.map Prod.fst).Nodup) (e : String × β) :
    e ∈ l ↔ alookup e.1 l = some e.2 := by
  obtain ⟨a, b⟩ := e
  induction l with
  | nil => simp [alookup]
  | cons e0 rest ih =>
    obtain ⟨k0, v0⟩ := e0
    simp only [List.map_cons, List.nodup_cons] at hl
    by_cases h : k0 = a
    · subst h
      have halk : alookup k0 ((k0, v0) :: rest) = some v0 := by simp [alookup]
      rw [halk]
      simp only [List.mem_cons, Option.some.injEq, Prod.mk.injEq, true_and]
      constructor
      · rintro (h1 | h2)
        · exact h1.symm
        · exact absurd (List.mem_map_of_mem Prod.fst h2) hl.1
      · exact fun hv => Or.inl hv.symm
    · simp only [alookup, if_neg h, List.mem_cons, Prod.mk.injEq]
      constructor
      · rintro (⟨h1, h2⟩ | hmem)
        · exact absurd h1.symm h
        · exact (ih hl.2).mp hmem
      · intro hv
        exact Or.inr ((ih hl.2).mpr hv)

theorem keys_dmodify {β : Type} (k : String) (f : β → β) (l : List (String × β)) :
    (dmodify k f l).map Prod.fst = l.map Prod.fst := by
  induction l with
  | nil => simp [dmodify]
  | cons e rest ih => by_cases h : e.1 = k <;> simp [dmodify, h, ih]

theorem dmodify_eq_map {β : Type} (k : String) (f : β → β)
    {l : List (String × β)} (hl : (l.map Prod.fst).Nodup) :
    dmodify k f l = l.map (fun e => if e.1 = k then (e.1, f e.2) else e) := by
  induction l with
  | nil => simp [dmodify]
  | cons e0 rest ih =>
    simp only [List.map_cons, List.nodup_cons] at hl
    by_cases h : e0.1 = k
    · simp only [dmodify, if_pos h, List.map_cons, List.cons.injEq, true_and]
      rw [List.map_congr_left, List.map_id]
      intro e he
      have hne : e.1 ≠ k := by
        intro hek
        exact hl.1 (by rw [h, ← hek]; exact List.mem_map_of_mem Prod.fst he)
      simp [hne]
    · simp [dmodify, h, ih hl.2]

/-! ### First-occurrence deduplication -/


theorem mem_firstOccs {a : String} {l : List String} : a ∈ firstOccs l ↔ a ∈ l := by
  induction l with
  | nil => simp [firstOccs]
  | cons x xs ih =>
    by_cases h : a = x <;> simp [firstOccs, List.mem_filter, h, ih]

theorem nodup_firstOccs (l : List String) : (firstOccs l).Nodup := by
  induction l with
  | nil => simp [firstOccs]
  | cons x xs ih =>
    refine List.Nodup.cons ?_ (List.Nodup.filter _ ih)
    intro hx
    have h2 := (List.mem_filter.mp hx).2
    simp at h2

theorem firstOccs_append_singleton (l : List String) (x : String) :
    firstOccs (l ++ [x]) = if x ∈ l then firstOccs l else firstOccs l ++ [x] := by
  induction l with
  | nil => simp [firstOccs]
  | cons y ys ih =>
    by_cases hx : x ∈ ys
    · simp [firstOccs, ih, hx]
    · by_cases hxy : x = y
      · subst hxy
        simp [firstOccs, ih, hx, List.filter_append]
      · simp [firstOccs, ih, hx, hxy, List.filter_append]

/-! ### Generic two-level defaultdict grouping -/

section GroupBy

variable {R β : Type} (recog : R → Bool) (K S : R → String) (upd : R → β → β) (d0 : β)


theorem groupBy2_append_singleton (rows : List R) (r : R) :
    groupBy2 recog K S upd d0 (rows ++ [r]) =
      groupStep recog K S upd d0 (groupBy2 recog K S upd d0 rows) r := by
  simp [groupBy2, List.foldl_append]

theorem innerGroup_append_singleton (rows : List R) (r : R) :
    innerGroup S upd d0 (rows ++ [r]) =
      dupdate (S r) (upd r) d0 (innerGroup S upd d0 rows) := by
  simp [innerGroup, List.foldl_append]

theorem groupBy2_keys (rows : List R) :
    (groupBy2 recog K S upd d0 rows).map Prod.fst =
      firstOccs ((rows.filter recog).map K) := by
  induction rows using List.reverseRecOn with
  | nil => simp [groupBy2, firstOccs]
  | append_singleton rows r ih =>
    rw [groupBy2_append_singleton, groupStep, List.filter_append]
    by_cases hr : recog r
    · rw [if_pos hr, keys_dupdate, ih]
      have hfc : List.filter recog [r] = [r] := by simp [hr]
      rw [hfc, List.map_append, List.map_cons, List.map_nil, firstOccs_append_singleton]
      by_cases hk : K r ∈ (rows.filter recog).map K
      · rw [if_pos (mem_firstOccs.mpr hk), if_pos hk]
      · rw [if_neg (fun hh => hk (mem_firstOccs.mp hh)), if_neg hk]
    · rw [if_neg hr, ih]
      have hfc : List.filter recog [r] = [] := by simp [hr]
      rw [hfc, List.append_nil]

theorem groupBy2_alookup (rows : List R) (k : String) :
    ((alookup k (groupBy2 recog K S upd d0 rows)).getD []) =
      innerGroup S upd d0 (rows.filter (fun r => recog r && decide (K r = k))) := by
  induction rows using List.reverseRecOn with
  | nil => simp [groupBy2, innerGroup, alookup]
  | append_singleton rows r ih =>
    rw [groupBy2_append_singleton, groupStep, List.filter_append]
    by_cases hr : recog r
    · rw [if_pos hr]
      by_cases hk : K r = k
      · subst hk
        rw [alookup_dupdate_self, Option.getD_some]
        have hfc : List.filter (fun x => recog x && decide (K x = K r)) [r] = [r] := by
          simp [hr]
        rw [hfc, innerGroup_append_singleton, ih]
      · rw [alookup_dupdate_ne _ _ _ (Ne.symm hk)]
        have hfc : List.filter (fun x => recog x && decide (K x = k)) [r] = [] := by
          simp [hk]
        rw [hfc, List.append_nil, ih]
    · rw [if_neg hr]
      have hfc : List.filter (fun x => recog x && decide (K x = k)) [r] = [] := by
        simp [hr]
      rw [hfc, List.append_nil, ih]

theorem dupdate_map_mem (keys : List String) (v : String → β) (k : String)
    (f : β → β) (d : β) (hnd : keys.Nodup) (hk : k ∈ keys) :
    dupdate k f d (keys.map (fun s => (s, v s))) =
      keys.map (fun s => (s, if s = k then f (v s) else v s)) := by
  induction keys with
  | nil => simp at hk
  | cons s0 rest ih =>
    simp only [List.nodup_cons] at hnd
    by_cases h : s0 = k
    · subst h
      have lhs : dupdate s0 f d (List.map (fun s => (s, v s)) (s0 :: rest))
          = (s0, f (v s0)) :: List.map (fun s => (s, v s)) rest := by
        simp [dupdate]
      rw [lhs, List.map_cons, if_pos rfl]
      congr 1
      apply List.map_congr_left
      intro s hs
      have hss : s ≠ s0 := fun hh => hnd.1 (hh ▸ hs)
      simp [hss]
    · have hk2 : k ∈ rest := by
        rcases List.mem_cons.mp hk with h1 | h2
        · exact absurd h1.symm h
        · exact h2
      have lhs : dupdate k f d (List.map (fun s => (s, v s)) (s0 :: rest))
          = (s0, v s0) :: dupdate k f d (List.map (fun s => (s, v s)) rest) := by
        simp [dupdate, h]
      rw [lhs, ih hnd.2 hk2, List.map_cons, if_neg h]

theorem keys_map_pair {γ : Type} (l : List String) (v : String → γ) :
    (l.map (fun s => (s, v s))).map Prod.fst = l := by
  induction l with
  | nil => simp
  | cons x xs ih => simp [ih]

theorem innerGroup_eq (rows : List R) :
    innerGroup S upd d0 rows =
      (firstOccs (rows.map S)).map
        (fun s => (s, (rows.filter (fun r => decide (S r = s))).foldl
          (fun v r => upd r v) d0)) := by
  induction rows using List.reverseRecOn with
  | nil => simp [innerGroup, firstOccs]
  | append_singleton rows r ih =>
    rw [innerGroup_append_singleton, ih, List.map_append, List.map_cons, List.map_nil,
      firstOccs_append_singleton]
    by_cases hs : S r ∈ rows.map S
    · rw [if_pos hs]
      rw [dupdate_map_mem _ _ _ _ _ (nodup_firstOccs _) (mem_firstOccs.mpr hs)]
      apply List.map_congr_left
      intro s hsmem
      simp only [List.filter_append, List.foldl_append, List.filter_cons, List.filter_nil]
      by_cases hss : s = S r
      · subst hss
        simp
      · have hd : ¬(decide (S r = s) = true) := by simp [Ne.symm hss]
        simp [hd, hss]
    · rw [if_neg hs]
      rw [dupdate_of_not_mem _ _
        (by rw [keys_map_pair]; exact fun hh => hs (mem_firstOccs.mp hh))]
      rw [List.map_append, List.map_cons, List.map_nil]
      congr 1
      · apply List.map_congr_left
        intro s hsmem
        have hsr : s ≠ S r := fun hss => hs (hss ▸ mem_firstOccs.mp hsmem)
        simp only [List.filter_append, List.foldl_append, List.filter_cons, List.filter_nil]
        have hd : ¬(decide (S r = s) = true) := by simp [Ne.symm hsr]
        simp [hd]
      · have hfilter : rows.filter (fun x => decide (S x = S r)) = [] := by
          rw [List.filter_eq_nil_iff]
          intro x hx
          simp only [decide_eq_true_eq]
          exact fun hSx => hs (hSx ▸ List.mem_map_of_mem S hx)
        simp [List.filter_append, List.foldl_append, hfilter]

end GroupBy

/-! ### Phase 1: the name-keyed primary dict -/

section BuildMap

variable {R β : Type} (key : R → String) (mk : R → β)


theorem build_map_append_singleton (rows : List R) (r : R) :
    build_map key mk (rows ++ [r]) =
      dupdate (key r) (fun _ => mk r) (mk r) (build_map key mk rows) := by
  simp [build_map, List.foldl_append]

theorem build_map_keys (rows : List R) :
    (build_map key mk rows).map Prod.fst = firstOccs (rows.map key) := by
  induction rows using List.reverseRecOn with
  | nil => simp [build_map, firstOccs]
  | append_singleton rows r ih =>
    rw [build_map_append_singleton, keys_dupdate, ih, List.map_append, List.map_cons,
      List.map_nil, firstOccs_append_singleton]
    by_cases hk : key r ∈ rows.map key
    · rw [if_pos (mem_firstOccs.mpr hk), if_pos hk]
    · rw [if_neg (fun hh => hk (mem_firstOccs.mp hh)), if_neg hk]

theorem build_map_alookup (rows : List R) (n : String) :
    alookup n (build_map key mk rows) =
      ((rows.filter (fun r => decide (key r = n))).getLast?).map mk := by
  induction rows using List.reverseRecOn with
  | nil => simp [build_map, alookup]
  | append_singleton rows r ih =>
    rw [build_map_append_singleton, List.filter_append]
    by_cases h : key r = n
    · subst h
      rw [alookup_dupdate_self]
      have hfc : List.filter (fun x => decide (key x = key r)) [r] = [r] := by simp
      rw [hfc, List.getLast?_concat]
      simp
    · rw [alookup_dupdate_ne _ _ _ (Ne.symm h)]
      have hfc : List.filter (fun x => decide (key x = n)) [r] = [] := by simp [h]
      rw [hfc, List.append_nil, ih]

theorem build_map_nodup_keys (rows : List R) :
    ((build_map key mk rows).map Prod.fst).Nodup := by
  rw [build_map_keys]
  exact nodup_firstOccs _

theorem build_map_mem {rows : List R} {e : String × β} (he : e ∈ build_map key mk rows) :
    ∃ r, r ∈ rows ∧ key r = e.1 ∧ e.2 = mk r := by
  have halk := (mem_iff_alookup (build_map_nodup_keys key mk rows) e).mp he
  rw [build_map_alookup] at halk
  rcases Option.map_eq_some'.mp halk with ⟨r, hr1, hr2⟩
  have hrmem := List.mem_of_mem_getLast? hr1
  rcases List.mem_filter.mp hrmem with ⟨hrows, hkey⟩
  exact ⟨r, hrows, by simpa using hkey, hr2.symm⟩

end BuildMap

/-! ### Phase 2: attaching grouped children to the primary dict -/


theorem applyOptF_some {β γ : Type} (F : γ → β → β) (v : γ) (b : β) :
    applyOptF F (some v) b = F v b := rfl

theorem applyOptF_none {β γ : Type} (F : γ → β → β) (b : β) :
    applyOptF F none b = b := rfl

theorem attach_foldl {β γ : Type} (F : γ → β → β) (g : List (String × γ))
    (m : List (String × β)) (hg : (g.map Prod.fst).Nodup)
    (hm : (m.map Prod.fst).Nodup) :
    g.foldl (fun acc e => dmodify e.1 (F e.2) acc) m =
      m.map (fun e => (e.1, applyOptF F (alookup e.1 g) e.2)) := by
  induction g generalizing m with
  | nil =>
    simp [alookup, applyOptF]
  | cons ge rest ih =>
    simp only [List.foldl_cons]
    simp only [List.map_cons, List.nodup_cons] at hg
    rw [dmodify_eq_map ge.1 (F ge.2) hm]
    have hk : ((m.map (fun e => if e.1 = ge.1 then (e.1, F ge.2 e.2) else e)).map
        Prod.fst) = m.map Prod.fst := by
      rw [List.map_map]
      apply List.map_congr_left
      intro e he
      by_cases h : e.1 = ge.1 <;> simp [Function.comp, h]
    rw [ih _ hg.2 (by rw [hk]; exact hm), List.map_map]
    apply List.map_congr_left
    intro e he
    simp only [Function.comp]
    by_cases h : e.1 = ge.1
    · rw [if_pos h]
      have hnone : alookup e.1 rest = none := (alookup_eq_none_iff _ _).mpr (h ▸ hg.1)
      have hcons : alookup e.1 (ge :: rest) = some ge.2 := by
        simp [alookup, h.symm]
      simp [hcons, hnone, applyOptF]
    · rw [if_neg h]
      have hcons : alookup e.1 (ge :: rest) = alookup e.1 rest := by
        simp [alookup, Ne.symm h]
      simp [hcons]

/-! ### Bridging the concrete builders to the generic loops -/

theorem foldl_append_singleton {α σ : Type} (g : α → σ) (l : List α) (init : List σ) :
    l.foldl (fun v r => v ++ [g r]) init = init ++ l.map g := by
  induction l generalizing init with
  | nil => simp
  | cons x xs ih => simp [ih]


theorem group_subnets_eq (rows : List SubnetRow) :
    group_subnets rows =
      groupBy2 (fun _ => true) SubnetRow.bd_name SubnetRow.site_name
        (fun row subs => subs ++ [subnetOf row]) [] rows := rfl

theorem build_bridge_domains_none (bd_rows : List BdRow) :
    build_bridge_domains bd_rows none =
      (build_map BdRow.name mkBridgeDomain bd_rows).map Prod.snd := rfl

theorem build_bridge_domains_some (bd_rows : List BdRow) (rows : List SubnetRow) :
    build_bridge_domains bd_rows (some rows) =
      ((group_subnets rows).foldl (fun acc e => dmodify e.1 (bdAttach e.2) acc)
        (build_map BdRow.name mkBridgeDomain bd_rows)).map Prod.snd := rfl


theorem group_subnets_alookup (rows : List SubnetRow) (k : String) :
    ((alookup k (group_subnets rows)).getD []).map toSite = bdSitesSpec rows k := by
  rw [group_subnets_eq, groupBy2_alookup]
  have hfe : rows.filter (fun r => (fun _ : SubnetRow => true) r && decide (r.bd_name = k))
      = rows.filter (fun r => decide (r.bd_name = k)) := by
    apply List.filter_congr
    intro x _
    simp
  rw [hfe, innerGroup_eq, List.map_map]
  unfold bdSitesSpec
  apply List.map_congr_left
  intro s hsmem
  simp only [Function.comp, toSite]
  rw [List.filter_filter, foldl_append_singleton, List.nil_append]
  rw [List.filter_congr
    (fun x _ => Bool.and_comm (decide (x.site_name = s)) (decide (x.bd_name = k)))]

theorem group_subnets_nodup_keys (rows : List SubnetRow) :
    ((group_subnets rows).map Prod.fst).Nodup := by
  rw [group_subnets_eq, groupBy2_keys]
  exact nodup_firstOccs _

/-- Master characterization of the bridge-domain builder with a subnet
table: the output is exactly the phase-1 output with each record's
sites replaced by the specification-level grouping of the subnet rows
under that record's name. -/
theorem bd_master (bd_rows : List BdRow) (rows : List SubnetRow) :
    build_bridge_domains bd_rows (some rows) =
      (build_bridge_domains bd_rows none).map
        (fun bd => { bd with sites := bdSitesSpec rows bd.name }) := by
  rw [build_bridge_domains_some, build_bridge_domains_none]
  rw [attach_foldl bdAttach (group_subnets rows) _ (group_subnets_nodup_keys rows)
    (build_map_nodup_keys _ _ _)]
  rw [List.map_map, List.map_map]
  apply List.map_congr_left
  intro e he
  obtain ⟨r, hr, hkey, hval⟩ := build_map_mem _ _ he
  obtain ⟨k, bd⟩ := e
  have hkey2 : r.name = k := hkey
  have hval2 : bd = mkBridgeDomain r := hval
  subst hval2
  show applyOptF bdAttach (alookup k (group_subnets rows)) (mkBridgeDomain r)
      = { mkBridgeDomain r with sites := bdSitesSpec rows (mkBridgeDomain r).name }
  have hkn : (mkBridgeDomain r).name = k := hkey2
  rw [hkn]
  cases halk : alookup k (group_subnets rows) with
  | none =>
    rw [applyOptF_none]
    have hspec : bdSitesSpec rows k = [] := by
      rw [← group_subnets_alookup rows k, halk]
      rfl
    rw [hspec]
    rfl
  | some inner =>
    rw [applyOptF_some]
    have hspec : bdSitesSpec rows k = inner.map toSite := by
      rw [← group_subnets_alookup rows k, halk]
      rfl
    rw [hspec]
    simp [bdAttach, mkBridgeDomain]


theorem group_domains_eq (rows : List EpgDomainRow) :
    group_domains rows =
      groupBy2 domRecog EpgDomainRow.epg_name EpgDomainRow.site_name domUpd ⟨[], []⟩
        rows := by
  unfold group_domains groupBy2
  apply List.foldl_ext
  intro g row hrow
  by_cases h1 : row.domain_type = "physical"
  · have hfun : domUpd row = fun d => { d with phys := d.phys ++ [row.domain_name] } := by
      funext d
      simp [domUpd, h1]
    simp [groupStep, domRecog, h1, hfun]
  · by_cases h2 : row.domain_type = "vmm"
    · have hfun : domUpd row = fun d => { d with vmm := d.vmm ++ [row.domain_name] } := by
        funext d
        simp [domUpd, h1]
      simp [groupStep, domRecog, h1, h2, hfun]
    · simp [groupStep, domRecog, h1, h2]

theorem build_epgs_none (epg_rows : List EpgRow) :
    build_epgs epg_rows none = (build_map EpgRow.name mkEpg epg_rows).map Prod.snd := rfl

theorem build_epgs_some (epg_rows : List EpgRow) (rows : List EpgDomainRow) :
    build_epgs epg_rows (some rows) =
      ((group_domains rows).foldl (fun acc e => dmodify e.1 (epgAttach e.2) acc)
        (build_map EpgRow.name mkEpg epg_rows)).map Prod.snd := rfl


theorem domUpd_foldl (rs : List EpgDomainRow) (init : DomLists) :
    rs.foldl (fun v r => domUpd r v) init =
      ⟨init.phys ++ (rs.filter
          (fun r => decide (r.domain_type = "physical"))).map EpgDomainRow.domain_name,
        init.vmm ++ (rs.filter
          (fun r => !decide (r.domain_type = "physical"))).map EpgDomainRow.domain_name⟩ := by
  induction rs generalizing init with
  | nil => simp
  | cons x xs ih =>
    rw [List.foldl_cons, ih]
    by_cases h : x.domain_type = "physical" <;>
      simp [domUpd, h, List.filter_cons, List.append_assoc]

theorem group_domains_alookup (rows : List EpgDomainRow) (k : String) :
    ((alookup k (group_domains rows)).getD []).map toEpgSite = epgSitesSpec rows k := by
  rw [group_domains_eq, groupBy2_alookup, innerGroup_eq, List.map_map]
  unfold epgSitesSpec
  apply List.map_congr_left
  intro s hsmem
  simp only [Function.comp, toEpgSite]
  rw [List.filter_filter, domUpd_foldl]
  congr 1
  · dsimp only
    rw [List.nil_append, List.filter_filter]
    apply congrArg
    apply List.filter_congr
    intro x _
    by_cases hp : x.domain_type = "physical" <;> by_cases he : x.epg_name = k <;>
      by_cases hs2 : x.site_name = s <;> simp_all [domRecog]
  · dsimp only
    rw [List.nil_append, List.filter_filter]
    apply congrArg
    apply List.filter_congr
    intro x _
    by_cases hp : x.domain_type = "physical" <;> by_cases hv : x.domain_type = "vmm" <;>
      by_cases he : x.epg_name = k <;> by_cases hs2 : x.site_name = s <;>
        simp_all [domRecog]

theorem group_domains_nodup_keys (rows : List EpgDomainRow) :
    ((group_domains rows).map Prod.fst).Nodup := by
  rw [group_domains_eq, groupBy2_keys]
  exact nodup_firstOccs _

/-- Master characterization of the EPG builder with a domain table. -/
theorem epg_master (epg_rows : List EpgRow) (rows : List EpgDomainRow) :
    build_epgs epg_rows (some rows) =
      (build_epgs epg_rows none).map
        (fun e => { e with sites := epgSitesSpec rows e.name }) := by
  rw [build_epgs_some, build_epgs_none]
  rw [attach_foldl epgAttach (group_domains rows) _ (group_domains_nodup_keys rows)
    (build_map_nodup_keys _ _ _)]
  rw [List.map_map, List.map_map]
  apply List.map_congr_left
  intro e he
  obtain ⟨r, hr, hkey, hval⟩ := build_map_mem _ _ he
  obtain ⟨k, ep⟩ := e
  have hkey2 : r.name = k := hkey
  have hval2 : ep = mkEpg r := hval
  subst hval2
  show applyOptF epgAttach (alookup k (group_domains rows)) (mkEpg r)
      = { mkEpg r with sites := epgSitesSpec rows (mkEpg r).name }
  have hkn : (mkEpg r).name = k := hkey2
  rw [hkn]
  cases halk : alookup k (group_domains rows) with
  | none =>
    rw [applyOptF_none]
    have hspec : epgSitesSpec rows k = [] := by
      rw [← group_domains_alookup rows k, halk]
      rfl
    rw [hspec]
    rfl
  | some inner =>
    rw [applyOptF_some]
    have hspec : epgSitesSpec rows k = inner.map toEpgSite := by
      rw [← group_domains_alookup rows k, halk]
      rfl
    rw [hspec]
    simp [epgAttach, mkEpg]

/-! ### String-level lemmas for the two parsers -/

theorem stripChars_eq_nil_iff (l : List Char) :
    stripChars l = [] ↔ l.all Char.isWhitespace = true := by
  constructor
  · intro h
    unfold stripChars at h
    rw [List.reverse_eq_nil_iff, List.dropWhile_eq_nil_iff] at h
    rw [List.all_eq_true]
    intro x hx
    have hx2 : x ∈ List.takeWhile Char.isWhitespace l ++
        List.dropWhile Char.isWhitespace l := by
      rw [List.takeWhile_append_dropWhile]
      exact hx
    rcases List.mem_append.mp hx2 with h1 | h2
    · exact List.mem_takeWhile_imp h1
    · exact h x (List.mem_reverse.mpr h2)
  · intro h
    unfold stripChars
    have h1 : l.dropWhile Char.isWhitespace = [] := by
      rw [List.dropWhile_eq_nil_iff]
      intro x hx
      exact (List.all_eq_true.mp h) x hx
    rw [h1]
    simp

theorem pyStrip_eq_empty_iff (s : String) :
    pyStrip s = "" ↔ s.data.all Char.isWhitespace = true := by
  rw [String.ext_iff]
  exact stripChars_eq_nil_iff s.data

theorem splitChar_ne_nil (c : Char) (l : List Char) : splitChar c l ≠ [] := by
  induction l with
  | nil => simp [splitChar]
  | cons x xs ih =>
    cases hsp : splitChar c xs with
    | nil => exact absurd hsp ih
    | cons h t => by_cases hx : x = c <;> simp [splitChar, hsp, hx]

theorem splitChar_append_self (c : Char) (l : List Char) :
    splitChar c (l ++ [c]) = splitChar c l ++ [[]] := by
  induction l with
  | nil => simp [splitChar]
  | cons x xs ih =>
    cases hsp : splitChar c xs with
    | nil => exact absurd hsp (splitChar_ne_nil c xs)
    | cons h t =>
      have : splitChar c (x :: (xs ++ [c])) =
          match splitChar c (xs ++ [c]) with
          | [] => [[]]
          | h :: t => if x = c then [] :: h :: t else (x :: h) :: t := rfl
      rw [List.cons_append, this, ih, hsp]
      by_cases hx : x = c <;> simp [splitChar, hsp, hx]

theorem pySplit_append_comma (s : String) :
    pySplit ',' (s ++ ",") = pySplit ',' s ++ [""] := by
  unfold pySplit
  have hdata : (s ++ ",").data = s.data ++ [','] := by
    rw [String.data_append]
  rw [hdata, splitChar_append_self, List.map_append]
  rfl

theorem parse_list_field_of_whitespace {s : String}
    (h : s.data.all Char.isWhitespace = true) : parse_list_field s = [] := by
  unfold parse_list_field
  rw [if_pos (Or.inr ((pyStrip_eq_empty_iff s).mpr h))]

theorem parse_list_field_of_not_whitespace {s : String}
    (h : ¬s.data.all Char.isWhitespace = true) :
    parse_list_field s = (pySplit ',' s).map pyStrip := by
  unfold parse_list_field
  rw [if_neg]
  rintro (h1 | h2)
  · subst h1
    exact h rfl
  · exact h ((pyStrip_eq_empty_iff s).mp h2)

theorem parse_list_field_trailing_comma (s : String) :
    parse_list_field (s ++ ",") = (pySplit ',' s).map pyStrip ++ [""] := by
  have hws : ¬(s ++ ",").data.all Char.isWhitespace = true := by
    intro hall
    rw [String.data_append] at hall
    have hmem : ',' ∈ s.data ++ (",").data :=
      List.mem_append_right _ (by decide)
    exact absurd (List.all_eq_true.mp hall ',' hmem) (by decide)
  rw [parse_list_field_of_not_whitespace hws, pySplit_append_comma, List.map_append]
  rfl

/-! ### Helper lemmas for the claims -/

theorem filter_key_alookup {β : Type} (n : String) {l : List (String × β)}
    (hl : (l.map Prod.fst).Nodup) :
    l.filter (fun e => decide (e.1 = n)) =
      ((alookup n l).map (fun v => (n, v))).toList := by
  induction l with
  | nil => simp [alookup]
  | cons e rest ih =>
    obtain ⟨k, v⟩ := e
    simp only [List.map_cons, List.nodup_cons] at hl
    by_cases h : k = n
    · subst h
      have hrest : rest.filter (fun e => decide (e.1 = k)) = [] := by
        rw [List.filter_eq_nil_iff]
        intro x hx
        simp only [decide_eq_true_eq]
        exact fun hxk => hl.1 (hxk ▸ List.mem_map_of_mem Prod.fst hx)
      have halk : alookup k ((k, v) :: rest) = some v := by simp [alookup]
      rw [halk]
      simp [List.filter_cons, hrest]
    · have halk : alookup n ((k, v) :: rest) = alookup n rest := by simp [alookup, h]
      rw [halk, ← ih hl.2]
      simp [List.filter_cons, h]

theorem build_map_filter {R β : Type} (key : R → String) (mk : R → β)
    (nameOf : β → String) (hname : ∀ r0 : R, nameOf (mk r0) = key r0)
    (rows : List R) (n : String) (r : R)
    (hlast : (rows.filter (fun x => decide (key x = n))).getLast? = some r) :
    ((build_map key mk rows).map Prod.snd).filter (fun b => decide (nameOf b = n)) =
      [mk r] := by
  rw [List.filter_map]
  have h1 : List.filter ((fun b => decide (nameOf b = n)) ∘ Prod.snd)
      (build_map key mk rows) =
      List.filter (fun e => decide (e.1 = n)) (build_map key mk rows) := by
    apply List.filter_congr
    intro e he
    obtain ⟨r0, _, hkey, hval⟩ := build_map_mem _ _ he
    have hn : nameOf e.2 = e.1 := by rw [hval, hname, hkey]
    simp [Function.comp, hn]
  rw [h1, filter_key_alookup n (build_map_nodup_keys key mk rows),
    build_map_alookup, hlast]
  rfl

theorem bdSitesSpec_drop_row (rows1 rows2 : List SubnetRow) (r : SubnetRow)
    (n : String) (hne : r.bd_name ≠ n) :
    bdSitesSpec (rows1 ++ r :: rows2) n = bdSitesSpec (rows1 ++ rows2) n := by
  unfold bdSitesSpec
  have h1 : (rows1 ++ r :: rows2).filter (fun x => decide (x.bd_name = n))
      = (rows1 ++ rows2).filter (fun x => decide (x.bd_name = n)) := by
    simp [List.filter_append, List.filter_cons, hne]
  rw [h1]
  apply List.map_congr_left
  intro s hs
  have h2 : (rows1 ++ r :: rows2).filter
        (fun x => decide (x.bd_name = n) && decide (x.site_name = s))
      = (rows1 ++ rows2).filter
        (fun x => decide (x.bd_name = n) && decide (x.site_name = s)) := by
    simp [List.filter_append, List.filter_cons, hne]
  rw [h2]

theorem epgSitesSpec_drop_row (rows1 rows2 : List EpgDomainRow) (r : EpgDomainRow)
    (n : String) (hne : r.epg_name ≠ n) :
    epgSitesSpec (rows1 ++ r :: rows2) n = epgSitesSpec (rows1 ++ rows2) n := by
  unfold epgSitesSpec
  have h1 : (rows1 ++ r :: rows2).filter (fun x => domRecog x && decide (x.epg_name = n))
      = (rows1 ++ rows2).filter (fun x => domRecog x && decide (x.epg_name = n)) := by
    simp [List.filter_append, List.filter_cons, hne]
  rw [h1]
  apply List.map_congr_left
  intro s hs
  have h2 : (rows1 ++ r :: rows2).filter (fun x =>
        decide (x.epg_name = n) && decide (x.site_name = s) &&
          decide (x.domain_type = "physical"))
      = (rows1 ++ rows2).filter (fun x =>
        decide (x.epg_name = n) && decide (x.site_name = s) &&
          decide (x.domain_type = "physical")) := by
    simp [List.filter_append, List.filter_cons, hne]
  have h3 : (rows1 ++ r :: rows2).filter (fun x =>
        decide (x.epg_name = n) && decide (x.site_name = s) &&
          decide (x.domain_type = "vmm"))
      = (rows1 ++ rows2).filter (fun x =>
        decide (x.epg_name = n) && decide (x.site_name = s) &&
          decide (x.domain_type = "vmm")) := by
    simp [List.filter_append, List.filter_cons, hne]
  rw [h2, h3]

theorem epgSitesSpec_drop_unrec (rows1 rows2 : List EpgDomainRow) (r : EpgDomainRow)
    (n : String) (hp : r.domain_type ≠ "physical") (hv : r.domain_type ≠ "vmm") :
    epgSitesSpec (rows1 ++ r :: rows2) n = epgSitesSpec (rows1 ++ rows2) n := by
  unfold epgSitesSpec
  have h1 : (rows1 ++ r :: rows2).filter (fun x => domRecog x && decide (x.epg_name = n))
      = (rows1 ++ rows2).filter (fun x => domRecog x && decide (x.epg_name = n)) := by
    simp [List.filter_append, List.filter_cons, domRecog, hp, hv]
  rw [h1]
  apply List.map_congr_left
  intro s hs
  have h2 : (rows1 ++ r :: rows2).filter (fun x =>
        decide (x.epg_name = n) && decide (x.site_name = s) &&
          decide (x.domain_type = "physical"))
      = (rows1 ++ rows2).filter (fun x =>
        decide (x.epg_name = n) && decide (x.site_name = s) &&
          decide (x.domain_type = "physical")) := by
    simp [List.filter_append, List.filter_cons, hp]
  have h3 : (rows1 ++ r :: rows2).filter (fun x =>
        decide (x.epg_name = n) && decide (x.site_name = s) &&
          decide (x.domain_type = "vmm"))
      = (rows1 ++ rows2).filter (fun x =>
        decide (x.epg_name = n) && decide (x.site_name = s) &&
          decide (x.domain_type = "vmm")) := by
    simp [List.filter_append, List.filter_cons, hv]
  rw [h2, h3]

theorem map_self_of_pointwise {α : Type} (l : List α) (f : α → α)
    (h : ∀ a ∈ l, f a = a) : l.map f = l := by
  induction l with
  | nil => rfl
  | cons x xs ih =>
    rw [List.map_cons, h x (List.mem_cons_self x xs),
      ih (fun a ha => h a (List.mem_cons_of_mem x ha))]

theorem bdSitesSpec_map_name (rows : List SubnetRow) (n : String) :
    (bdSitesSpec rows n).map Site.name =
      firstOccs ((rows.filter (fun r => decide (r.bd_name = n))).map
        SubnetRow.site_name) := by
  unfold bdSitesSpec
  rw [List.map_map]
  exact map_self_of_pointwise _ _ (fun a _ => rfl)

theorem epgSitesSpec_map_name (rows : List EpgDomainRow) (n : String) :
    (epgSitesSpec rows n).map EpgSite.name =
      firstOccs ((rows.filter (fun r => domRecog r && decide (r.epg_name = n))).map
        EpgDomainRow.site_name) := by
  unfold epgSitesSpec
  rw [List.map_map]
  exact map_self_of_pointwise _ _ (fun a _ => rfl)

/-! ### The claims -/

/-- C5: parse_bool returns true exactly when the lower-cased input is a
member of the truthy set; in particular "true", "True", "YES", "1"
parse to true and "false", "no", "0", "", "garbage" parse to false,
with no error case. -/
theorem claim_C5 :
    (∀ s : String, parse_bool s = true ↔ pyLower s ∈ ["true", "yes", "1"]) ∧
    parse_bool "true" = true ∧ parse_bool "True" = true ∧
    parse_bool "YES" = true ∧ parse_bool "1" = true ∧
    parse_bool "false" = false ∧ parse_bool "no" = false ∧
    parse_bool "0" = false ∧ parse_bool "" = false ∧
    parse_bool "garbage" = false := by
  refine ⟨fun s => ?_, by decide, by decide, by decide, by decide, by decide, by decide,
    by decide, by decide, by decide⟩
  simp [parse_bool, List.contains, List.elem_iff]

/-- C8: the VRF and ANP builders are row-for-row maps: output length
equals row count, and the record at every index is built verbatim from
the row at the same index. -/
theorem claim_C8 :
    (∀ rows : List VrfRow, (build_vrfs rows).length = rows.length ∧
      ∀ i : Nat, (build_vrfs rows)[i]? = rows[i]?.map
        (fun r => ({ name := r.name, schema := r.schema, template := r.template } : Vrf))) ∧
    (∀ rows : List AnpRow, (build_anps rows).length = rows.length ∧
      ∀ i : Nat, (build_anps rows)[i]? = rows[i]?.map
        (fun r => ({ name := r.name, schema := r.schema, template := r.template } : Anp))) := by
  constructor
  · intro rows
    exact ⟨by simp [build_vrfs], fun i => by simp [build_vrfs, List.getElem?_map]⟩
  · intro rows
    exact ⟨by simp [build_anps], fun i => by simp [build_anps, List.getElem?_map]⟩

/-- C9: parse_list_field returns the empty list on every empty or
all-whitespace input; any other input is split at commas with each
token stripped of surrounding whitespace, empty tokens kept, so a
trailing comma contributes a trailing empty-string element. -/
theorem claim_C9 :
    (∀ s : String, s.data.all Char.isWhitespace = true → parse_list_field s = []) ∧
    (∀ s : String, ¬s.data.all Char.isWhitespace = true →
      parse_list_field s = (pySplit ',' s).map pyStrip) ∧
    (∀ s : String, parse_list_field (s ++ ",") = (pySplit ',' s).map pyStrip ++ [""]) ∧
    parse_list_field "a, b," = ["a", "b", ""] := by
  exact ⟨fun s h => parse_list_field_of_whitespace h,
    fun s h => parse_list_field_of_not_whitespace h,
    parse_list_field_trailing_comma, by decide⟩

/-- C9 witness: the whitespace branch and the split branch evaluated at
concrete inputs. -/
theorem claim_C9_witness :
    ((" " : String).data.all Char.isWhitespace = true ∧ parse_list_field " " = []) ∧
    (¬("x,y" : String).data.all Char.isWhitespace = true ∧
      parse_list_field "x,y" = (pySplit ',' "x,y").map pyStrip) := by
  exact ⟨⟨by decide, claim_C9.1 " " (by decide)⟩,
    ⟨by decide, claim_C9.2.1 "x,y" (by decide)⟩⟩

/-- C10: the attach phase changes nothing but the sites field: erasing
sites from the two-table output gives exactly the primary-only output
with sites erased, for every secondary table. -/
theorem claim_C10 :
    (∀ (bd_rows : List BdRow) (rows : List SubnetRow),
      (build_bridge_domains bd_rows (some rows)).map (fun bd => { bd with sites := [] }) =
        (build_bridge_domains bd_rows none).map (fun bd => { bd with sites := [] })) ∧
    (∀ (epg_rows : List EpgRow) (rows : List EpgDomainRow),
      (build_epgs epg_rows (some rows)).map (fun e => { e with sites := [] }) =
        (build_epgs epg_rows none).map (fun e => { e with sites := [] })) := by
  constructor
  · intro bd_rows rows
    rw [bd_master, List.map_map]
    apply List.map_congr_left
    intro bd _
    rfl
  · intro epg_rows rows
    rw [epg_master, List.map_map]
    apply List.map_congr_left
    intro e _
    rfl

/-- C6: with no secondary table (path omitted or file absent, embedded
as none) both join builders succeed and give every entity an empty
sites list. -/
theorem claim_C6 :
    (∀ bd_rows : List BdRow, ∀ bd ∈ build_bridge_domains bd_rows none, bd.sites = []) ∧
    (∀ epg_rows : List EpgRow, ∀ e ∈ build_epgs epg_rows none, e.sites = []) := by
  constructor
  · intro bd_rows bd hbd
    rw [build_bridge_domains_none] at hbd
    rcases List.mem_map.mp hbd with ⟨e, he, rfl⟩
    obtain ⟨r, _, _, hval⟩ := build_map_mem _ _ he
    rw [hval]
    rfl
  · intro epg_rows e he
    rw [build_epgs_none] at he
    rcases List.mem_map.mp he with ⟨e0, he0, rfl⟩
    obtain ⟨r, _, _, hval⟩ := build_map_mem _ _ he0
    rw [hval]
    rfl

/-- C6 witness: one-row inputs with the secondary table absent. -/
theorem claim_C6_witness :
    (({ name := "A", schema := "s", template := "t", vrf := "v", layer2_stretch := true,
          unicast_routing := false, sites := [] } : BridgeDomain) ∈
        build_bridge_domains [⟨"A", "s", "t", "v", "1", "0"⟩] none ∧
      ({ name := "A", schema := "s", template := "t", vrf := "v", layer2_stretch := true,
          unicast_routing := false, sites := [] } : BridgeDomain).sites = []) ∧
    (({ name := "E", schema := "s", template := "t", ap := "a", bd := "b",
          description := "", vrf := "v", sites := [] } : Epg) ∈
        build_epgs [⟨"E", "s", "t", "a", "b", none, "v"⟩] none ∧
      ({ name := "E", schema := "s", template := "t", ap := "a", bd := "b",
          description := "", vrf := "v", sites := [] } : Epg).sites = []) := by
  refine ⟨⟨by decide, ?_⟩, ⟨by decide, ?_⟩⟩
  · exact claim_C6.1 [⟨"A", "s", "t", "v", "1", "0"⟩] _ (by decide)
  · exact claim_C6.2 [⟨"E", "s", "t", "a", "b", none, "v"⟩] _ (by decide)

/-- C7: in every produced bridge domain and EPG the site names are
pairwise distinct, whatever the primary and secondary inputs. -/
theorem claim_C7 :
    (∀ (bd_rows : List BdRow) (sub : Option (List SubnetRow)),
      ∀ bd ∈ build_bridge_domains bd_rows sub, (bd.sites.map Site.name).Nodup) ∧
    (∀ (epg_rows : List EpgRow) (dom : Option (List EpgDomainRow)),
      ∀ e ∈ build_epgs epg_rows dom, (e.sites.map EpgSite.name).Nodup) := by
  constructor
  · intro bd_rows sub bd hbd
    cases sub with
    | none =>
      rw [build_bridge_domains_none] at hbd
      rcases List.mem_map.mp hbd with ⟨e, he, rfl⟩
      obtain ⟨r, _, _, hval⟩ := build_map_mem _ _ he
      rw [hval]
      simp [mkBridgeDomain]
    | some rows =>
      rw [bd_master] at hbd
      rcases List.mem_map.mp hbd with ⟨bd0, _, rfl⟩
      show ((bdSitesSpec rows bd0.name).map Site.name).Nodup
      rw [bdSitesSpec_map_name]
      exact nodup_firstOccs _
  · intro epg_rows dom e he
    cases dom with
    | none =>
      rw [build_epgs_none] at he
      rcases List.mem_map.mp he with ⟨e0, he0, rfl⟩
      obtain ⟨r, _, _, hval⟩ := build_map_mem _ _ he0
      rw [hval]
      simp [mkEpg]
    | some rows =>
      rw [epg_master] at he
      rcases List.mem_map.mp he with ⟨e0, _, rfl⟩
      show ((epgSitesSpec rows e0.name).map EpgSite.name).Nodup
      rw [epgSitesSpec_map_name]
      exact nodup_firstOccs _

/-- C7 witness: a subnet table with two rows on the same site still
yields distinct site names inside the produced bridge domain, likewise
for an EPG with repeated site rows. -/
theorem claim_C7_witness :
    (({ name := "A", schema := "s", template := "t", vrf := "v", layer2_stretch := true,
          unicast_routing := true,
          sites := [{ name := "s1",
                      subnets := [⟨"10.0.0.0/24", "public"⟩, ⟨"10.0.1.0/24", "private"⟩],
                      l3outs := none }] } : BridgeDomain) ∈
        build_bridge_domains [⟨"A", "s", "t", "v", "1", "1"⟩]
          (some [⟨"A", "s1", "10.0.0.0/24", "public"⟩,
                 ⟨"A", "s1", "10.0.1.0/24", "private"⟩]) ∧
      (({ name := "A", schema := "s", template := "t", vrf := "v", layer2_stretch := true,
            unicast_routing := true,
            sites := [{ name := "s1",
                        subnets := [⟨"10.0.0.0/24", "public"⟩, ⟨"10.0.1.0/24", "private"⟩],
                        l3outs := none }] } : BridgeDomain).sites.map Site.name).Nodup) ∧
    (({ name := "E", schema := "s", template := "t", ap := "a", bd := "b",
          description := "d", vrf := "v",
          sites := [{ name := "s1", phys_domain_association := ["p1", "p2"],
                      vmm_domain_association := [] }] } : Epg) ∈
        build_epgs [⟨"E", "s", "t", "a", "b", some "d", "v"⟩]
          (some [⟨"E", "s1", "physical", "p1"⟩, ⟨"E", "s1", "physical", "p2"⟩]) ∧
      (({ name := "E", schema := "s", template := "t", ap := "a", bd := "b",
            description := "d", vrf := "v",
            sites := [{ name := "s1", phys_domain_association := ["p1", "p2"],
                        vmm_domain_association := [] }] } : Epg).sites.map
          EpgSite.name).Nodup) := by
  refine ⟨⟨by decide, ?_⟩, ⟨by decide, ?_⟩⟩
  · exact claim_C7.1 [⟨"A", "s", "t", "v", "1", "1"⟩]
      (some [⟨"A", "s1", "10.0.0.0/24", "public"⟩, ⟨"A", "s1", "10.0.1.0/24", "private"⟩])
      _ (by decide)
  · exact claim_C7.2 [⟨"E", "s", "t", "a", "b", some "d", "v"⟩]
      (some [⟨"E", "s1", "physical", "p1"⟩, ⟨"E", "s1", "physical", "p2"⟩])
      _ (by decide)

/-- C1: on the two-BD primary table with the three-row subnet table,
BD A carries site1 (two subnets in row order) then site2 (one subnet)
and BD B carries no sites; in general every produced record's sites
are the subnet rows grouped two levels deep by (bd_name, site_name),
sites ordered by first occurrence of site_name within the record's
rows, subnets in row order, l3outs null — the content of
bdSitesSpec. -/
theorem claim_C1 :
    (build_bridge_domains
        [⟨"A", "s1", "t1", "v1", "false", "no"⟩, ⟨"B", "s1", "t1", "v1", "true", "yes"⟩]
        (some [⟨"A", "site1", "10.0.0.0/24", "public"⟩,
               ⟨"A", "site1", "10.0.1.0/24", "private"⟩,
               ⟨"A", "site2", "10.1.0.0/24", "public"⟩]) =
      [{ name := "A", schema := "s1", template := "t1", vrf := "v1",
         layer2_stretch := false, unicast_routing := false,
         sites := [{ name := "site1",
                     subnets := [⟨"10.0.0.0/24", "public"⟩, ⟨"10.0.1.0/24", "private"⟩],
                     l3outs := none },
                   { name := "site2", subnets := [⟨"10.1.0.0/24", "public"⟩],
                     l3outs := none }] },
       { name := "B", schema := "s1", template := "t1", vrf := "v1",
         layer2_stretch := true, unicast_routing := true, sites := [] }]) ∧
    (∀ (bd_rows : List BdRow) (rows : List SubnetRow),
      ∀ bd ∈ build_bridge_domains bd_rows (some rows),
        bd.sites = bdSitesSpec rows bd.name) := by
  constructor
  · decide
  · intro bd_rows rows bd hbd
    rw [bd_master] at hbd
    rcases List.mem_map.mp hbd with ⟨bd0, _, rfl⟩
    rfl

/-- C1 witness: the grouping description evaluated on a one-row subnet
table. -/
theorem claim_C1_witness :
    (({ name := "A", schema := "s", template := "t", vrf := "v", layer2_stretch := true,
          unicast_routing := true,
          sites := [{ name := "s1", subnets := [⟨"10.0.0.0/24", "public"⟩],
                      l3outs := none }] } : BridgeDomain) ∈
        build_bridge_domains [⟨"A", "s", "t", "v", "1", "1"⟩]
          (some [⟨"A", "s1", "10.0.0.0/24", "public"⟩])) ∧
    ({ name := "A", schema := "s", template := "t", vrf := "v", layer2_stretch := true,
         unicast_routing := true,
         sites := [{ name := "s1", subnets := [⟨"10.0.0.0/24", "public"⟩],
                     l3outs := none }] } : BridgeDomain).sites =
      bdSitesSpec [⟨"A", "s1", "10.0.0.0/24", "public"⟩]
        ({ name := "A", schema := "s", template := "t", vrf := "v", layer2_stretch := true,
             unicast_routing := true,
             sites := [{ name := "s1", subnets := [⟨"10.0.0.0/24", "public"⟩],
                         l3outs := none }] } : BridgeDomain).name := by
  refine ⟨by decide, ?_⟩
  exact claim_C1.2 [⟨"A", "s", "t", "v", "1", "1"⟩]
    [⟨"A", "s1", "10.0.0.0/24", "public"⟩] _ (by decide)

/-- C2: duplicate primary names collapse to one record whose fields
come entirely from the last duplicate row, while the output order is
the first-occurrence order of the names; stated for both join
builders.  The key-order conjuncts give the position claim, the
filter conjuncts the uniqueness and last-row-wins claims. -/
theorem claim_C2 :
    (∀ bd_rows : List BdRow,
      (build_bridge_domains bd_rows none).map BridgeDomain.name =
        firstOccs (bd_rows.map BdRow.name)) ∧
    (∀ (bd_rows : List BdRow) (n : String) (r : BdRow),
      2 ≤ (bd_rows.filter (fun x => decide (x.name = n))).length →
      (bd_rows.filter (fun x => decide (x.name = n))).getLast? = some r →
      (build_bridge_domains bd_rows none).filter (fun bd => decide (bd.name = n)) =
        [mkBridgeDomain r]) ∧
    (∀ epg_rows : List EpgRow,
      (build_epgs epg_rows none).map Epg.name = firstOccs (epg_rows.map EpgRow.name)) ∧
    (∀ (epg_rows : List EpgRow) (n : String) (r : EpgRow),
      2 ≤ (epg_rows.filter (fun x => decide (x.name = n))).length →
      (epg_rows.filter (fun x => decide (x.name = n))).getLast? = some r →
      (build_epgs epg_rows none).filter (fun e => decide (e.name = n)) = [mkEpg r]) := by
  refine ⟨?_, ?_, ?_, ?_⟩
  · intro bd_rows
    rw [build_bridge_domains_none, List.map_map,
      ← build_map_keys BdRow.name mkBridgeDomain bd_rows]
    apply List.map_congr_left
    intro e he
    obtain ⟨r, _, hkey, hval⟩ := build_map_mem _ _ he
    show (e.2).name = e.1
    rw [hval]
    exact hkey
  · intro bd_rows n r _ hlast
    rw [build_bridge_domains_none]
    exact build_map_filter BdRow.name mkBridgeDomain BridgeDomain.name
      (fun r0 => rfl) bd_rows n r hlast
  · intro epg_rows
    rw [build_epgs_none, List.map_map, ← build_map_keys EpgRow.name mkEpg epg_rows]
    apply List.map_congr_left
    intro e he
    obtain ⟨r, _, hkey, hval⟩ := build_map_mem _ _ he
    show (e.2).name = e.1
    rw [hval]
    exact hkey
  · intro epg_rows n r _ hlast
    rw [build_epgs_none]
    exact build_map_filter EpgRow.name mkEpg Epg.name (fun r0 => rfl) epg_rows n r hlast

/-- C2 witness: three bridge-domain rows with name A twice collapse to
the last A row, and two same-named EPG rows collapse to the second. -/
theorem claim_C2_witness :
    ((build_bridge_domains
        [⟨"A", "s1", "t1", "v1", "1", "1"⟩, ⟨"B", "s", "t", "v", "0", "0"⟩,
         ⟨"A", "s2", "t2", "v2", "0", "0"⟩] none).filter
        (fun bd => decide (bd.name = "A")) =
      [mkBridgeDomain ⟨"A", "s2", "t2", "v2", "0", "0"⟩]) ∧
    ((build_epgs
        [⟨"E", "s1", "t1", "a1", "b1", some "d1", "v1"⟩,
         ⟨"E", "s2", "t2", "a2", "b2", none, "v2"⟩] none).filter
        (fun e => decide (e.name = "E")) =
      [mkEpg ⟨"E", "s2", "t2", "a2", "b2", none, "v2"⟩]) := by
  constructor
  · exact claim_C2.2.1 _ "A" _ (by decide) (by decide)
  · exact claim_C2.2.2.2 _ "E" _ (by decide) (by decide)

/-- C3: a secondary row whose parent name is not a primary key changes
nothing: deleting it from the secondary table gives the identical
output, with no error, for both join builders. -/
theorem claim_C3 :
    (∀ (bd_rows : List BdRow) (rows1 rows2 : List SubnetRow) (r : SubnetRow),
      r.bd_name ∉ bd_rows.map BdRow.name →
      build_bridge_domains bd_rows (some (rows1 ++ r :: rows2)) =
        build_bridge_domains bd_rows (some (rows1 ++ rows2))) ∧
    (∀ (epg_rows : List EpgRow) (rows1 rows2 : List EpgDomainRow) (r : EpgDomainRow),
      r.epg_name ∉ epg_rows.map EpgRow.name →
      build_epgs epg_rows (some (rows1 ++ r :: rows2)) =
        build_epgs epg_rows (some (rows1 ++ rows2))) := by
  constructor
  · intro bd_rows rows1 rows2 r hr
    rw [bd_master, bd_master]
    apply List.map_congr_left
    intro bd hbd
    have hname : bd.name ∈ bd_rows.map BdRow.name := by
      rw [build_bridge_domains_none] at hbd
      rcases List.mem_map.mp hbd with ⟨e, he, rfl⟩
      obtain ⟨r0, hr0, hkey, hval⟩ := build_map_mem _ _ he
      rw [hval]
      exact List.mem_map_of_mem BdRow.name hr0
    have hne : r.bd_name ≠ bd.name := fun hh => hr (hh ▸ hname)
    rw [bdSitesSpec_drop_row rows1 rows2 r bd.name hne]
  · intro epg_rows rows1 rows2 r hr
    rw [epg_master, epg_master]
    apply List.map_congr_left
    intro e he
    have hname : e.name ∈ epg_rows.map EpgRow.name := by
      rw [build_epgs_none] at he
      rcases List.mem_map.mp he with ⟨e0, he0, rfl⟩
      obtain ⟨r0, hr0, hkey, hval⟩ := build_map_mem _ _ he0
      rw [hval]
      exact List.mem_map_of_mem EpgRow.name hr0
    have hne : r.epg_name ≠ e.name := fun hh => hr (hh ▸ hname)
    rw [epgSitesSpec_drop_row rows1 rows2 r e.name hne]

/-- C3 witness: a subnet row for unknown bd_name C and a domain row for
unknown epg_name F are both dropped without any effect. -/
theorem claim_C3_witness :
    ((⟨"C", "s1", "10.9.0.0/24", "public"⟩ : SubnetRow).bd_name ∉
        ([⟨"A", "s", "t", "v", "1", "1"⟩] : List BdRow).map BdRow.name ∧
      build_bridge_domains [⟨"A", "s", "t", "v", "1", "1"⟩]
          (some ([] ++ (⟨"C", "s1", "10.9.0.0/24", "public"⟩ : SubnetRow) ::
            [⟨"A", "s1", "10.0.0.0/24", "public"⟩])) =
        build_bridge_domains [⟨"A", "s", "t", "v", "1", "1"⟩]
          (some ([] ++ [⟨"A", "s1", "10.0.0.0/24", "public"⟩]))) ∧
    ((⟨"F", "s1", "physical", "p"⟩ : EpgDomainRow).epg_name ∉
        ([⟨"E", "s", "t", "a", "b", none, "v"⟩] : List EpgRow).map EpgRow.name ∧
      build_epgs [⟨"E", "s", "t", "a", "b", none, "v"⟩]
          (some ([] ++ (⟨"F", "s1", "physical", "p"⟩ : EpgDomainRow) ::
            [⟨"E", "s1", "vmm", "vd"⟩])) =
        build_epgs [⟨"E", "s", "t", "a", "b", none, "v"⟩]
          (some ([] ++ [⟨"E", "s1", "vmm", "vd"⟩]))) := by
  refine ⟨⟨by decide, ?_⟩, ⟨by decide, ?_⟩⟩
  · exact claim_C3.1 _ [] _ _ (by decide)
  · exact claim_C3.2 _ [] _ _ (by decide)

/-- C4: in every produced EPG site the phys list is exactly the
physical-typed rows of that (epg, site) in row order and the vmm list
exactly the vmm-typed rows; a row with any other domain_type changes
nothing at all (deleting it gives the identical output, no error). -/
theorem claim_C4 :
    (∀ (epg_rows : List EpgRow) (rows : List EpgDomainRow),
      ∀ epg ∈ build_epgs epg_rows (some rows), ∀ site ∈ epg.sites,
        site.phys_domain_association =
          (rows.filter (fun r => decide (r.epg_name = epg.name) &&
            decide (r.site_name = site.name) &&
            decide (r.domain_type = "physical"))).map EpgDomainRow.domain_name ∧
        site.vmm_domain_association =
          (rows.filter (fun r => decide (r.epg_name = epg.name) &&
            decide (r.site_name = site.name) &&
            decide (r.domain_type = "vmm"))).map EpgDomainRow.domain_name) ∧
    (∀ (epg_rows : List EpgRow) (rows1 rows2 : List EpgDomainRow) (r : EpgDomainRow),
      r.domain_type ≠ "physical" → r.domain_type ≠ "vmm" →
      build_epgs epg_rows (some (rows1 ++ r :: rows2)) =
        build_epgs epg_rows (some (rows1 ++ rows2))) := by
  constructor
  · intro epg_rows rows epg hepg site hsite
    rw [epg_master] at hepg
    rcases List.mem_map.mp hepg with ⟨e0, _, rfl⟩
    have hsite2 : site ∈ epgSitesSpec rows e0.name := hsite
    unfold epgSitesSpec at hsite2
    rcases List.mem_map.mp hsite2 with ⟨s, _, rfl⟩
    exact ⟨rfl, rfl⟩
  · intro epg_rows rows1 rows2 r hp hv
    rw [epg_master, epg_master]
    apply List.map_congr_left
    intro e _
    rw [epgSitesSpec_drop_unrec rows1 rows2 r e.name hp hv]

/-- C4 witness: one EPG with one physical and one vmm row routed to
the two lists, and an unrecognized domain_type row deleted without
effect. -/
theorem claim_C4_witness :
    ((⟨"E", "s", "t", "a", "b", "", "v", [⟨"s1", ["p1"], ["v1"]⟩]⟩ : Epg) ∈
        build_epgs [⟨"E", "s", "t", "a", "b", none, "v"⟩]
          (some [⟨"E", "s1", "physical", "p1"⟩, ⟨"E", "s1", "vmm", "v1"⟩]) ∧
      (⟨"s1", ["p1"], ["v1"]⟩ : EpgSite).phys_domain_association =
        (([⟨"E", "s1", "physical", "p1"⟩, ⟨"E", "s1", "vmm", "v1"⟩] :
            List EpgDomainRow).filter (fun r =>
          decide (r.epg_name =
              (⟨"E", "s", "t", "a", "b", "", "v", [⟨"s1", ["p1"], ["v1"]⟩]⟩ : Epg).name) &&
          decide (r.site_name = (⟨"s1", ["p1"], ["v1"]⟩ : EpgSite).name) &&
          decide (r.domain_type = "physical"))).map EpgDomainRow.domain_name) ∧
    ((⟨"E", "s1", "other", "x"⟩ : EpgDomainRow).domain_type ≠ "physical" ∧
      (⟨"E", "s1", "other", "x"⟩ : EpgDomainRow).domain_type ≠ "vmm" ∧
      build_epgs [⟨"E", "s", "t", "a", "b", none, "v"⟩]
          (some ([] ++ (⟨"E", "s1", "other", "x"⟩ : EpgDomainRow) ::
            [⟨"E", "s1", "vmm", "vd"⟩])) =
        build_epgs [⟨"E", "s", "t", "a", "b", none, "v"⟩]
          (some ([] ++ [⟨"E", "s1", "vmm", "vd"⟩]))) := by
  refine ⟨⟨by decide, ?_⟩, by decide, by decide, ?_⟩
  · exact (claim_C4.1 [⟨"E", "s", "t", "a", "b", none, "v"⟩]
      [⟨"E", "s1", "physical", "p1"⟩, ⟨"E", "s1", "vmm", "v1"⟩]
      ⟨"E", "s", "t", "a", "b", "", "v", [⟨"s1", ["p1"], ["v1"]⟩]⟩ (by decide)
      ⟨"s1", ["p1"], ["v1"]⟩ (by decide)).1
  · exact claim_C4.2 [⟨"E", "s", "t", "a", "b", none, "v"⟩] []
      [⟨"E", "s1", "vmm", "vd"⟩] ⟨"E", "s1", "other", "x"⟩ (by decide) (by decide)
